import Mathlib

/-!
Shallow embedding of the LeadLock server (src/config.js, src/util.js,
src/memory.js, src/server.js, src/sheets.js) and proofs about it.

Modelling conventions used throughout:
* JavaScript strings are Lean `String`s; an absent value (`undefined`/`null`)
  is `Option.none`.  The JS truthiness test `if (s)` on a string is `s ≠ ""`.
* Instants are modelled as epoch milliseconds (`Int`).  An ISO-8601 timestamp
  cell is modelled as the decimal rendering of its epoch-millisecond value,
  so `new Date(t).toISOString()` becomes `toString t` and `Date.parse`
  becomes the decimal parser (order-isomorphic to the real encoding; an
  unparseable or empty cell maps to `none`, as `Date.parse` yields `NaN`).
* Numeric cells written by the program are decimal integer strings, so
  `Number(v)` on them is modelled by the decimal parser with the JS trim.
* A JS `Map` is an association list; `Map.set` overwrites in place or
  appends, `Map.get` returns the value of the unique entry for the key.
* Each loop body that reads `Date.now()` several times is modelled with a
  single `now` parameter (the standard idealisation of one tick).
-/

namespace LeadLock

/-! ### config.js -/

/-- config.js: exact header text of the phone column. -/
def LABEL_PHONE : String := "Phone Number (US)"

/-- config.js: number of calls before hiding a lead row. -/
def LOCK_AFTER_CALLS : Int := 2

/-- config.js: country code prepended to bare 10-digit numbers. -/
def DEFAULT_COUNTRY_CODE : String := "1"

/-- config.js: count outbound calls. -/
def COUNT_OUTBOUND : Bool := true

/-- config.js: count inbound calls. -/
def COUNT_INBOUND : Bool := false

/-! ### kernel-computable models of the JS string primitives

The JS string methods used by the source (`trim`, `toLowerCase`,
`includes`, `Number`/`Date.parse` on the decimal strings this program
writes) are modelled by the explicit char-list functions below, which the
Lean kernel evaluates; the data involved is ASCII, where these coincide
with the JS semantics. -/

/-- JS `toLowerCase` on one ASCII character. -/
def charLower (c : Char) : Char := if c.isUpper then Char.ofNat (c.toNat + 32) else c

/-- JS `String.prototype.toLowerCase`. -/
def strLower (s : String) : String := String.mk (s.data.map charLower)

/-- JS `String.prototype.trim`. -/
def strTrim (s : String) : String :=
  String.mk (((s.data.dropWhile Char.isWhitespace).reverse.dropWhile
    Char.isWhitespace).reverse)

/-- Substring occurrence on char lists. -/
def containsSub (sub : List Char) : List Char → Bool
  | [] => sub.isPrefixOf []
  | a :: rest => sub.isPrefixOf (a :: rest) || containsSub sub rest

/-- JS `String.prototype.includes`. -/
def strContains (s t : String) : Bool := containsSub t.data s.data

/-- Decimal digits to a value, rejecting a non-digit. -/
def digitsVal : Nat → List Char → Option Nat
  | acc, [] => some acc
  | acc, c :: rest =>
    if c.isDigit then digitsVal (acc * 10 + (c.toNat - 48)) rest else none

/-- `String.toNat?` on a char list: all digits, non-empty. -/
def strToNat? (l : List Char) : Option Nat :=
  match l with
  | [] => none
  | _ => digitsVal 0 l

/-- `String.toInt?`: an optional leading minus sign and digits. -/
def strToInt? (s : String) : Option Int :=
  match s.data with
  | '-' :: rest => (strToNat? rest).map (fun n => -(n : Int))
  | l => (strToNat? l).map (fun n => (n : Int))

/-! ### util.js -/

/-- Characters kept by `replace(/[^\d+]/g, "")`. -/
def isPhoneChar (c : Char) : Bool := c.isDigit || c == '+'

/-- The strip step of `normalizePhone` (`trim` is absorbed by the filter,
since whitespace is removed by it anyway). -/
def stripNonPhone (s : String) : String := String.mk (s.data.filter isPhoneChar)

/-- `/^\d{n}$/.test p` for the digit-count tests: every char is a digit. -/
def allDigits (s : String) : Bool := s.data.all Char.isDigit

/-- JS `String.prototype.startsWith`. -/
def strStartsWith (s pre : String) : Bool := pre.data.isPrefixOf s.data

/-- util.js `normalizePhone(raw)`: `none` models JS `null` ("not a phone").
The input `none` models a missing value; `""` is also falsy in `!raw`. -/
def normalizePhone (raw : Option String) : Option String :=
  match raw with
  | none => none
  | some r =>
    if r = "" then none
    else
      let p := stripNonPhone r
      if strStartsWith p "+" && decide (8 ≤ p.length) then some p
      else if p.length = 10 && allDigits p then some ("+" ++ DEFAULT_COUNTRY_CODE ++ p)
      else if p.length = 11 && allDigits p && strStartsWith p DEFAULT_COUNTRY_CODE then
        some ("+" ++ p)
      else if strStartsWith p "+" then some p
      else none

/-- `normalizePhone` applied to a present string (a sheet cell read as `""`
when missing, which is falsy exactly like an absent value). -/
def normalizePhoneS (s : String) : Option String := normalizePhone (some s)

/-- util.js `safeNumber(v, 0)` on the decimal-integer cells this program
writes: `Number("") = 0` coincides with the fallback `0` used at every
call site, and a non-numeric string yields the fallback. -/
def safeNumber (s : String) (fallback : Int) : Int := (strToInt? (strTrim s)).getD fallback

/-- `Date.parse` on a timestamp cell (see the module comment): empty and
garbage strings give `none` (JS `NaN`). -/
def dateParse (s : String) : Option Int := strToInt? s

/-- util.js `nowIso()` at instant `now`. -/
def nowIso (now : Int) : String := toString now

/-- util.js `minutesFromNowIso(minutes)` at instant `now`. -/
def minutesFromNowIso (now : Int) (minutes : Int) : String :=
  toString (now + minutes * 60 * 1000)

/-! ### association-list model of a JS `Map` -/

/-- `Map.get`. -/
def amGet {α : Type} (m : List (String × α)) (k : String) : Option α :=
  (m.find? (fun e => e.1 == k)).map (fun e => e.2)

/-- `Map.set`: overwrite the entry for `k` in place, else append. -/
def amSet {α : Type} (m : List (String × α)) (k : String) (v : α) : List (String × α) :=
  if m.any (fun e => e.1 == k) then
    m.map (fun e => if e.1 == k then (k, v) else e)
  else m ++ [(k, v)]

/-! ### memory.js -/

/-- memory.js dedupe portion of `state`: `recentEventKeys` and
`recentTtlMs` (default `10 * 60 * 1000`). -/
structure DedupeState where
  recentEventKeys : List (String × Int)
  recentTtlMs : Int
deriving Repr, DecidableEq

/-- memory.js `dedupeEvent(key)` at instant `now`: returns the `true`/`false`
result together with the updated state.  Mirrors the source: an empty key
returns `false` without touching the map; when the map holds more than
200000 entries, entries older than the TTL are purged; a stored timestamp
of `0` is falsy in `if (prev && ...)`. -/
def dedupeEvent (st : DedupeState) (key : String) (now : Int) : Bool × DedupeState :=
  if key = "" then (false, st)
  else
    let m0 := if 200000 < st.recentEventKeys.length then
        st.recentEventKeys.filter (fun e => !decide (st.recentTtlMs < now - e.2))
      else st.recentEventKeys
    match amGet m0 key with
    | some prev =>
      if prev ≠ 0 ∧ now - prev < st.recentTtlMs then (true, { st with recentEventKeys := m0 })
      else (false, { st with recentEventKeys := amSet m0 key now })
    | none => (false, { st with recentEventKeys := amSet m0 key now })

/-! ### server.js: payload shape and extractors

A webhook payload is modelled by the optional lookups the source performs
on it (design note: "a tolerant extractor that walks a small set of fixed
paths").  A `status` that is a bare string rather than an object is held in
the `_plain` fields. -/

structure Payload where
  body_party_status_code : Option String := none
  body_status_code : Option String := none
  body_party_status_plain : Option String := none
  body_status_plain : Option String := none
  body_party_direction : Option String := none
  body_direction : Option String := none
  body_party_to_phone : Option String := none
  body_party_from_phone : Option String := none
  body_to_phone : Option String := none
  body_from_phone : Option String := none
  body_parties : List (Option String × Option String) := []
  body_telephonySessionId : Option String := none
  root_telephonySessionId : Option String := none
  root_uuid : Option String := none
  root_id : Option String := none
  body_party_id : Option String := none
  body_partyId : Option String := none
  root_timestamp : Option String := none
  root_eventTime : Option String := none
  body_eventTime : Option String := none
deriving Repr, DecidableEq

/-- JS `a || b` on an optional string `a`: an absent or empty string falls
through to `b`. -/
def jsOr (a : Option String) (b : String) : String :=
  match a with
  | some s => if s = "" then b else s
  | none => b

/-- server.js `isEnded(payload)`. -/
def isEnded (p : Payload) : Bool :=
  let code := jsOr p.body_party_status_code (jsOr p.body_status_code
    (jsOr p.body_party_status_plain (jsOr p.body_status_plain "")))
  let s := strLower code
  strContains s "disconnected" || strContains s "ended" || strContains s "completed"

/-- server.js `getDirection(payload)`. -/
def getDirection (p : Payload) : String :=
  strLower (jsOr p.body_party_direction (jsOr p.body_direction ""))

/-- The `body.parties[]` scan of server.js `extractPhone`. -/
def extractPhoneFromParties : List (Option String × Option String) → Option String
  | [] => none
  | (t, f) :: rest =>
    match normalizePhone t with
    | some x => some x
    | none =>
      match normalizePhone f with
      | some x => some x
      | none => extractPhoneFromParties rest

/-- server.js `extractPhone(payload)`: first normalized-accepted candidate. -/
def extractPhone (p : Payload) : Option String :=
  match normalizePhone p.body_party_to_phone with
  | some x => some x
  | none =>
    match normalizePhone p.body_party_from_phone with
    | some x => some x
    | none =>
      match normalizePhone p.body_to_phone with
      | some x => some x
      | none =>
        match normalizePhone p.body_from_phone with
        | some x => some x
        | none => extractPhoneFromParties p.body_parties

/-- server.js `extractEventId(payload)`: `sessionId|partyId|status|ts`. -/
def extractEventId (p : Payload) : String :=
  let sessionId := jsOr p.body_telephonySessionId (jsOr p.root_telephonySessionId
    (jsOr p.root_uuid (jsOr p.root_id "")))
  let partyId := jsOr p.body_party_id (jsOr p.body_partyId "")
  let status := jsOr p.body_party_status_code (jsOr p.body_status_code "")
  let ts := jsOr p.root_timestamp (jsOr p.root_eventTime (jsOr p.body_eventTime ""))
  sessionId ++ "|" ++ partyId ++ "|" ++ status ++ "|" ++ ts

/-- All fields feeding `extractEventId` are absent. -/
def eventIdFieldsAbsent (p : Payload) : Bool :=
  p.body_telephonySessionId.isNone && p.root_telephonySessionId.isNone &&
  p.root_uuid.isNone && p.root_id.isNone &&
  p.body_party_id.isNone && p.body_partyId.isNone &&
  p.body_party_status_code.isNone && p.body_status_code.isNone &&
  p.root_timestamp.isNone && p.root_eventTime.isNone && p.body_eventTime.isNone

/-! ### server.js: process state and the webhook handler -/

/-- memory.js `state.metrics`. -/
structure Metrics where
  webhookEvents : Nat := 0
  endedCounted : Nat := 0
  queued : Nat := 0
  flushes : Nat := 0
  lastFlushAt : Option String := none
  unlockSweeps : Nat := 0
  lastUnlockSweepAt : Option String := none
  lastError : Option String := none
deriving Repr, DecidableEq

/-- The portion of memory.js `state` touched by the webhook handler and the
flush timer. -/
structure ServerState where
  dedupe : DedupeState
  pendingIncrements : List (String × Nat) := []
  lastEventIdByPhone : List (String × String) := []
  metrics : Metrics := {}
deriving Repr, DecidableEq

/-- memory.js `queueIncrement(phone, n)`. -/
def queueIncrement (st : ServerState) (phone : String) (n : Nat) : ServerState :=
  { st with
    pendingIncrements :=
      amSet st.pendingIncrements phone ((amGet st.pendingIncrements phone).getD 0 + n)
    metrics := { st.metrics with queued := st.metrics.queued + n } }

/-- An HTTP response of the webhook endpoint: status, body, and the
optional echoed `Validation-Token` response header. -/
structure WebhookResponse where
  status : Nat
  body : String
  validationTokenHeader : Option String := none
deriving Repr, DecidableEq

/-- The asynchronous part of the webhook handler (server.js lines 104-135),
run after the 200 response is sent.  Exceptions cannot arise in this pure
model, so the catch branch setting `metrics.lastError` is not reachable. -/
def processWebhookEvent (p : Payload) (st : ServerState) (now : Int) : ServerState :=
  let st1 := { st with metrics :=
    { st.metrics with webhookEvents := st.metrics.webhookEvents + 1 } }
  if !isEnded p then st1
  else
    let dir := getDirection p
    let isOut := strContains dir "out"
    let isIn := strContains dir "in"
    if (isOut && !COUNT_OUTBOUND) || (isIn && !COUNT_INBOUND) then st1
    else
      match extractPhone p with
      | none => st1
      | some phone =>
        let eventId := extractEventId p
        let dup := dedupeEvent st1.dedupe eventId now
        let st2 := { st1 with dedupe := dup.2 }
        if dup.1 then st2
        else
          let st3 := queueIncrement st2 phone 1
          let st4 := { st3 with metrics :=
            { st3.metrics with endedCounted := st3.metrics.endedCounted + 1 } }
          { st4 with lastEventIdByPhone := amSet st4.lastEventIdByPhone phone eventId }

/-- server.js `POST /ringcentral/webhook` (after the shared-secret check):
`validationToken` is `req.get("Validation-Token")`; a present non-empty
token is echoed in the response header, the body is the constant `"OK"`,
and no further work is done.  An absent (or empty, hence falsy) token
falls through to normal processing after the 200 response. -/
def handleWebhook (validationToken : Option String) (p : Payload) (st : ServerState)
    (now : Int) : WebhookResponse × ServerState :=
  match validationToken with
  | some t =>
    if t ≠ "" then ({ status := 200, body := "OK", validationTokenHeader := some t }, st)
    else ({ status := 200, body := "OK" }, processWebhookEvent p st now)
  | none => ({ status := 200, body := "OK" }, processWebhookEvent p st now)

/-! ### server.js: the flush timer -/

/-- A pending entry `{phone, inc, eventId}` handed to the flush. -/
structure PendingEntry where
  phone : String
  inc : Int
  eventId : String
deriving Repr, DecidableEq

/-- The entries list built by the flush timer (server.js lines 203-207). -/
def flushEntries (st : ServerState) : List PendingEntry :=
  st.pendingIncrements.map (fun pi =>
    { phone := pi.1, inc := (pi.2 : Int),
      eventId := (amGet st.lastEventIdByPhone pi.1).getD "" })

/-- One tick of the flush `setInterval` (server.js lines 198-217).  The
outcome of the awaited remote call `upsertLocksAndHideIfNeeded(entries)` is
abstracted as `remote`; the buffer is cleared before that call, and the
catch branch records the error with the `"flush: "` prefix. -/
def flushTick (st : ServerState) (remote : Except String Unit) (nowStr : String) :
    ServerState :=
  if st.pendingIncrements.isEmpty then st
  else
    let drained := { st with pendingIncrements := ([] : List (String × Nat)) }
    match remote with
    | .ok _ =>
      { drained with metrics := { drained.metrics with
          flushes := drained.metrics.flushes + 1, lastFlushAt := some nowStr } }
    | .error msg =>
      { drained with metrics := { drained.metrics with
          lastError := some ("flush: " ++ msg) } }

/-! ### settings (server.js `POST /api/settings`, sheets.js
`saveHoldMinutesToSettings`)

`holdMinutes` arrives through `Number(...)`, which yields an arbitrary
double; it is modelled as `Option ℚ`, with `none` for a non-finite result
(`NaN`, `±Infinity`).  The persisted settings tab body is modelled as the
per-sheet name→minutes table plus the legacy `A2` cell. -/

/-- The shared validation guard `!Number.isFinite(m) || m <= 0 || m > 1440`
(server.js line 164 and sheets.js line 215), as an acceptance predicate. -/
def holdMinutesValid (m : Option ℚ) : Bool :=
  match m with
  | none => false
  | some q => decide (0 < q) && decide (q ≤ 1440)

/-- The settings-related process and persisted state: the in-memory default
and per-sheet overlay, and the two persisted forms on the Settings tab. -/
structure SettingsState where
  holdMinutes : ℚ
  holdMinutesBySheet : List (String × ℚ)
  settingsTabBySheet : List (String × ℚ)
  settingsLegacyA2 : Option ℚ
deriving Repr, DecidableEq

/-- sheets.js `saveHoldMinutesToSettings(minutes, sheetName)`: validate,
then update the matching row of the per-sheet table in place or append it
(`amSet` captures find-row-update-else-append exactly), or write the legacy
`A2` cell when no sheet name is given.  Header (re)writing changes no body
row and is not modelled. -/
def saveHoldMinutesToSettings (st : SettingsState) (m : Option ℚ) (sheetName : String) :
    Except String SettingsState :=
  if !holdMinutesValid m then .error "Invalid holdMinutes"
  else
    match m with
    | none => .error "Invalid holdMinutes"
    | some q =>
      if sheetName ≠ "" then
        .ok { st with settingsTabBySheet := amSet st.settingsTabBySheet sheetName q }
      else .ok { st with settingsLegacyA2 := some q }

/-- Response of `POST /api/settings`. -/
structure SettingsResponse where
  status : Nat
  error : Option String := none
deriving Repr, DecidableEq

/-- server.js `POST /api/settings` (lines 161-178): validate `holdMinutes`;
on success set the overlay (per-sheet) or the process default (global) and
persist, swallowing persistence errors (`try ... catch {}`). -/
def handleSettings (holdMinutes : Option ℚ) (leadSheet : String) (st : SettingsState) :
    SettingsResponse × SettingsState :=
  if !holdMinutesValid holdMinutes then
    ({ status := 400, error := some "holdMinutes must be between 1 and 1440" }, st)
  else
    match holdMinutes with
    | none => ({ status := 400, error := some "holdMinutes must be between 1 and 1440" }, st)
    | some m =>
      let sheet := strTrim leadSheet
      if sheet ≠ "" then
        let st1 := { st with holdMinutesBySheet := amSet st.holdMinutesBySheet sheet m }
        let st2 := match saveHoldMinutesToSettings st1 (some m) sheet with
          | .ok s => s
          | .error _ => st1
        ({ status := 200 }, st2)
      else
        let st1 := { st with holdMinutes := m }
        let st2 := match saveHoldMinutesToSettings st1 (some m) "" with
          | .ok s => s
          | .error _ => st1
        ({ status := 200 }, st2)

/-! ### sheets.js: the Leads Index -/

/-- A value of `state.leadsCache.phoneToLoc`: `{ sheetName, rowIndex1Based }`. -/
structure LeadLoc where
  sheetName : String
  rowIndex1 : Nat
deriving Repr, DecidableEq

/-- The phone → location index (a JS `Map`, insertion-ordered). -/
abbrev LeadsIndex := List (String × LeadLoc)

/-- `state.leadsCache.phoneToLoc.get(phone)`. -/
def idxLookup (idx : LeadsIndex) (p : String) : Option LeadLoc := amGet idx p

/-- `state.leadsCache.phoneToLoc.has(phone)`. -/
def idxHas (idx : LeadsIndex) (p : String) : Bool := idx.any (fun e => e.1 == p)

/-- The guarded insert of `refreshLeadsIndex` (sheets.js lines 139-141):
first sheet/row in scan order wins. -/
def idxInsertIfAbsent (idx : LeadsIndex) (p : String) (loc : LeadLoc) : LeadsIndex :=
  if idxHas idx p then idx else idx ++ [(p, loc)]

/-- Locate the phone column: `headerMap` maps each trimmed header text to
its index, later duplicates overwriting earlier ones, and the column is
`headerMap.get(LABEL_PHONE)`. -/
def phoneColOf (header : List String) : Option Nat :=
  ((List.range header.length).filter
    (fun i => strTrim (header.getD i "") == LABEL_PHONE)).getLast?

/-- The data-row loop of `refreshLeadsIndex` for one tab (sheets.js lines
134-142): `rowIndex1` is the 1-based sheet row of the head of `rows`. -/
def scanRows (sheet : String) (col : Nat) (rowIndex1 : Nat) (rows : List (List String))
    (idx : LeadsIndex) : LeadsIndex :=
  match rows with
  | [] => idx
  | row :: rest =>
    let idx2 :=
      match normalizePhoneS (row.getD col "") with
      | none => idx
      | some ph => idxInsertIfAbsent idx ph ⟨sheet, rowIndex1⟩
    scanRows sheet col (rowIndex1 + 1) rest idx2

/-- Processing of one fetched tab by `refreshLeadsIndex`: find the phone
column in the header row (failing loudly if absent), then scan the data
rows starting at sheet row 2. -/
def refreshTab (idx : LeadsIndex) (sheet : String) (values : List (List String)) :
    Except String LeadsIndex :=
  match phoneColOf (values.getD 0 []) with
  | none => .error ("Leads header not found in " ++ sheet ++ ": " ++ LABEL_PHONE)
  | some c => .ok (scanRows sheet c 2 (values.drop 1) idx)

/-- The tab loop of a full `refreshLeadsIndex()` over the configured tabs
and their fetched cell ranges, in configured order. -/
def refreshAllTabs : List (String × List (List String)) → LeadsIndex →
    Except String LeadsIndex
  | [], idx => .ok idx
  | (n, v) :: rest, idx =>
    match refreshTab idx n v with
    | .error e => .error e
    | .ok idx2 => refreshAllTabs rest idx2

/-- sheets.js `refreshLeadsIndex()` with no sheet argument: the index is
rebuilt from scratch.  (On a thrown error the partially filled map is
discarded here; no claim concerns the partial state.) -/
def refreshLeadsIndexFull (tabs : List (String × List (List String))) :
    Except String LeadsIndex :=
  refreshAllTabs tabs []

/-- sheets.js `refreshLeadsIndex(sheetName)` for a single tab: entries whose
stored tab equals the refreshed tab are removed first, then the tab is
re-scanned into the surviving index. -/
def refreshLeadsIndexOne (idx : LeadsIndex) (sheet : String)
    (values : List (List String)) : Except String LeadsIndex :=
  refreshTab (idx.filter (fun e => !(e.2.sheetName == sheet))) sheet values

/-- Modelled from the spec wording of the duplicate policy ("first
occurrence in the configured tab order"): the reference stream of
(phone, location) pairs of every accepted data row, tabs in configured
order, rows in sheet order; `amGet` on it is the first occurrence. -/
def tabOccurrences (sheet : String) (col : Nat) (rowIndex1 : Nat) :
    List (List String) → List (String × LeadLoc)
  | [] => []
  | row :: rest =>
    (match normalizePhoneS (row.getD col "") with
     | none => []
     | some ph => [(ph, ⟨sheet, rowIndex1⟩)]) ++ tabOccurrences sheet col (rowIndex1 + 1) rest

/-- The reference occurrence stream over all configured tabs. -/
def allOccurrences : List (String × List (List String)) → List (String × LeadLoc)
  | [] => []
  | (n, v) :: rest =>
    (match phoneColOf (v.getD 0 []) with
     | none => []
     | some c => tabOccurrences n c 2 (v.drop 1)) ++ allOccurrences rest

/-- The first occurrence of `ph` in configured tab-then-row order. -/
def firstOccurrence (tabs : List (String × List (List String))) (ph : String) :
    Option LeadLoc :=
  amGet (allOccurrences tabs) ph

/-! ### sheets.js: Lock Table, flush upsert, and unlock sweep -/

/-- A row of the Locks tab, as fetched (`A:G`); a missing cell reads as
`""`, which is falsy like JS `undefined` at the sites below.  (At sheets.js
line 489 a missing v2 cell stringifies to `"undefined"`, which also fails
`Date.parse` and is skipped; both routes skip the record.) -/
abbrev LockRow := List String

/-- sheets.js `_detectLocksSchema`: v2 iff `A1 = Phone` and `B1 = LeadSheet`
(trimmed, case-insensitive). -/
def detectV2 (headerRow : LockRow) : Bool :=
  (strLower (strTrim (headerRow.getD 0 "")) == "phone") &&
  (strLower (strTrim (headerRow.getD 1 "")) == "leadsheet")

/-- The `lockMap` key: `phone|sheet` for v2, bare phone for v1. -/
def lockKey (isV2 : Bool) (phone sheet : String) : String :=
  if isV2 then phone ++ "|" ++ sheet else phone

/-- Building `lockMap` (sheets.js lines 336-344): each data row with a
normalizable phone is keyed; `Map.set` makes the last row win for a
duplicate key. -/
def buildLockMap (rows : List LockRow) (isV2 : Bool) : List (String × (Nat × LockRow)) :=
  rows.enum.filterMap (fun e =>
    match normalizePhoneS (e.2.getD 0 "") with
    | none => none
    | some ph =>
      some (lockKey isV2 ph (if isV2 then strTrim (e.2.getD 1 "") else ""), (e.1 + 2, e.2)))

/-- `lockMap.get(key)`: the last `set` wins, i.e. the last matching entry. -/
def lockMapGet (rows : List LockRow) (isV2 : Bool) (key : String) :
    Option (Nat × LockRow) :=
  (((buildLockMap rows isV2).reverse).find? (fun e => e.1 == key)).map (fun e => e.2)

/-- The found record for an entry (sheets.js lines 360-361). -/
def entryFound (rows : List LockRow) (isV2 : Bool) (phone sheet : String) :
    Option (Nat × LockRow) :=
  lockMapGet rows isV2 (lockKey isV2 phone sheet)

/-- `curCount` (sheets.js line 363): CallCount of the found record, else 0. -/
def entryCurCount (found : Option (Nat × LockRow)) (isV2 : Bool) : Int :=
  match found with
  | some f => safeNumber (f.2.getD (if isV2 then 3 else 2) "") 0
  | none => 0

/-- The existing `lockedUntil` string (sheets.js lines 366-367). -/
def entryLockedUntil (found : Option (Nat × LockRow)) (isV2 : Bool) : String :=
  match found with
  | some f => strTrim (f.2.getD (if isV2 then 4 else 3) "")
  | none => ""

/-- `currentlyLocked` (sheets.js line 368): the stored value is non-empty
and parses to an instant strictly after `now`. -/
def currentlyLockedAt (lockedUntil : String) (now : Int) : Bool :=
  if lockedUntil = "" then false
  else
    match dateParse lockedUntil with
    | some t => decide (now < t)
    | none => false

/-- The remote-spreadsheet environment the flush and sweep read: configured
tab names, the in-memory Leads Index (already loaded), the tab-title → tab
id mapping, and the lock/cooldown settings. -/
structure SheetEnv where
  leadsNames : List String
  index : LeadsIndex
  sheetIdByTitle : String → Nat
  lockAfterCalls : Int
  holdMinutes : Int
  holdMinutesBySheet : List (String × Int)

/-- sheets.js `getHoldMinutesForSheet`: the overlay value when present and
positive, else the process default. -/
def getHoldMinutesForSheet (env : SheetEnv) (sheet : String) : Int :=
  match amGet env.holdMinutesBySheet sheet with
  | some v => if 0 < v then v else env.holdMinutes
  | none => env.holdMinutes

/-- A `updateDimensionProperties` request on a row range of a tab:
`hidden = true` hides, `false` unhides. -/
structure DimRequest where
  sheetId : Nat
  startIndex : Int
  endIndex : Int
  hidden : Bool
deriving Repr, DecidableEq

/-- A Locks write emitted by the flush: an in-place update of row
`target = some rowIndex1`, or an append (`target = none`). -/
structure LockWrite where
  target : Option Nat
  values : List String
deriving Repr, DecidableEq

/-- The per-entry body of the flush loop (sheets.js lines 349-422): `none`
when the phone is not in the Leads Index (the entry is skipped entirely);
otherwise the emitted Locks write and the optional hide request. -/
def processEntry (env : SheetEnv) (isV2 : Bool) (lockRows : List LockRow) (now : Int)
    (e : PendingEntry) : Option (LockWrite × Option DimRequest) :=
  match idxLookup env.index e.phone with
  | none => none
  | some loc =>
    let leadSheet := loc.sheetName
    let leadRowIndex1 := loc.rowIndex1
    let found := entryFound lockRows isV2 e.phone leadSheet
    let nextCount := entryCurCount found isV2 + e.inc
    let lockedUntil0 := entryLockedUntil found isV2
    let locked := currentlyLockedAt lockedUntil0 now
    let shouldLock := !locked && decide (env.lockAfterCalls ≤ nextCount)
    let lockedUntil :=
      if shouldLock then minutesFromNowIso now (getHoldMinutesForSheet env leadSheet)
      else lockedUntil0
    let hide : Option DimRequest :=
      if shouldLock then
        some { sheetId := env.sheetIdByTitle leadSheet,
               startIndex := (leadRowIndex1 : Int) - 1,
               endIndex := (leadRowIndex1 : Int), hidden := true }
      else none
    let values :=
      if isV2 then
        [e.phone, leadSheet, toString leadRowIndex1, toString nextCount, lockedUntil,
         e.eventId, nowIso now]
      else
        [e.phone, toString leadRowIndex1, toString nextCount, lockedUntil, e.eventId,
         nowIso now]
    some ({ target := found.map (fun f => f.1), values := values }, hide)

/-- sheets.js `upsertLocksAndHideIfNeeded(entries)`: schema check for
multi-tab deployments, then the per-entry loop.  The emitted writes are
returned in loop order (the source then batches updates, appends, and
finally the hide requests). -/
def upsertLocksAndHideIfNeeded (env : SheetEnv) (locks : List LockRow)
    (entries : List PendingEntry) (now : Int) :
    Except String (List LockWrite × List DimRequest) :=
  if entries.isEmpty then .ok ([], [])
  else if 1 < env.leadsNames.length && !detectV2 (locks.getD 0 []) then
    .error "Locks sheet must use v2 headers for multi-sheet"
  else
    let isV2 := detectV2 (locks.getD 0 [])
    let results := entries.filterMap (processEntry env isV2 (locks.drop 1) now)
    .ok (results.map (fun r => r.1), results.filterMap (fun r => r.2))

/-- The row targeted by a sweep unhide (sheets.js lines 497-498): the
index's current row when the index maps the phone to the same tab, else the
record's stored LeadRow. -/
def sweepUnhideRow (env : SheetEnv) (phone leadSheet : String) (storedLeadRow : Int) :
    Int :=
  match idxLookup env.index phone with
  | some loc => if loc.sheetName = leadSheet then (loc.rowIndex1 : Int) else storedLeadRow
  | none => storedLeadRow

/-- The `E:G` (v2) / `D:F` (v1) values written by a sweep clear (sheets.js
lines 515-525): empty LockedUntil, the existing LastEventId, `UpdatedAt = now`. -/
def clearVals (isV2 : Bool) (row : LockRow) (now : Int) : List String :=
  if isV2 then ["", row.getD 5 "", nowIso now] else ["", row.getD 4 "", nowIso now]

/-- The per-record body of the sweep loop (sheets.js lines 482-526): `none`
when the record is skipped, else the unhide request and the cell update
`(lockRowIndex1, values)` clearing the lock. -/
def sweepRecord (env : SheetEnv) (isV2 : Bool) (now : Int) (i : Nat) (row : LockRow) :
    Option (DimRequest × (Nat × List String)) :=
  match normalizePhoneS (row.getD 0 "") with
  | none => none
  | some phone =>
    let leadSheet := if isV2 then strTrim (row.getD 1 "") else env.leadsNames.getD 0 ""
    let storedLeadRow := safeNumber (row.getD (if isV2 then 2 else 1) "") 0
    let lockedUntil := strTrim (row.getD (if isV2 then 4 else 3) "")
    if leadSheet = "" ∨ storedLeadRow = 0 ∨ lockedUntil = "" then none
    else
      match dateParse lockedUntil with
      | none => none
      | some t =>
        if now < t then none
        else
          let r := sweepUnhideRow env phone leadSheet storedLeadRow
          some ({ sheetId := env.sheetIdByTitle leadSheet,
                  startIndex := r - 1, endIndex := r, hidden := false },
                (i + 2, clearVals isV2 row now))

/-- sheets.js `unlockExpiredAndUnhide()`: the record loop over the data
rows; returns the batched unhide requests and the batched cell updates, in
loop order. -/
def unlockExpiredAndUnhide (env : SheetEnv) (locks : List LockRow) (now : Int) :
    List DimRequest × List (Nat × List String) :=
  let header := locks.getD 0 []
  let rows := locks.drop 1
  if rows.isEmpty then ([], [])
  else
    let isV2 := detectV2 header
    let results := rows.enum.filterMap (fun e => sweepRecord env isV2 now e.1 e.2)
    (results.map (fun r => r.1), results.map (fun r => r.2))

/-- Pad a row with empty cells up to length `n` (reading a short row's
missing cells as empty, as the values API does). -/
def padTo (row : List String) (n : Nat) : List String :=
  row ++ List.replicate (n - row.length) ""

/-- Apply a values write that starts at 0-based column `start` of a row:
columns left of `start` keep their (possibly empty) contents. -/
def applyColsFrom (row : List String) (start : Nat) (vals : List String) : List String :=
  (padTo row start).take start ++ vals

/-- Apply the sweep's batched cell updates to the data rows of the Locks
tab: the update addressed to sheet row `i + 2` rewrites columns `E:G`
(v2) / `D:F` (v1) of data row `i`.  Distinct single-row ranges in one
`values.batchUpdate` commute, so pointwise application is faithful. -/
def applySweepUpdates (isV2 : Bool) (rows : List LockRow)
    (updates : List (Nat × List String)) : List LockRow :=
  rows.enum.map (fun e =>
    match updates.find? (fun u => u.1 == e.1 + 2) with
    | some u => applyColsFrom e.2 (if isV2 then 4 else 3) u.2
    | none => e.2)

/-- The v2 guard deciding whether the sweep clears a record at `now`: the
phone normalizes, the tab and stored row are usable, and LockedUntil parses
to an instant `≤ now` (an empty cell never parses).  This is exactly the
condition under which `sweepRecord` fires; it does not depend on the
environment. -/
def v2Expired (row : LockRow) (now : Int) : Bool :=
  (normalizePhoneS (row.getD 0 "")).isSome &&
  !(strTrim (row.getD 1 "") == "") &&
  !(safeNumber (row.getD 2 "") 0 == 0) &&
  (match dateParse (strTrim (row.getD 4 "")) with
   | some t => decide (t ≤ now)
   | none => false)

/-- First-defined option wins (the shape of a map lookup over
concatenations). -/
def optFirst {α : Type} (a b : Option α) : Option α :=
  match a with
  | some x => some x
  | none => b

/-- The sweep's batched cell updates in closed form, for data rows starting
at 0-based offset `k` (sheet row `k + 2`): one clearing update per record
satisfying the expiry guard.  Proved below to equal the update list built
by `unlockExpiredAndUnhide` on a v2 table. -/
def sweepClearUpdates (now : Int) (k : Nat) (rows : List LockRow) :
    List (Nat × List String) :=
  (List.enumFrom k rows).filterMap (fun e =>
    if v2Expired e.2 now then some (e.1 + 2, clearVals true e.2 now) else none)

/-- The values of the Locks write of a processed entry (`[]` when the entry
was skipped). -/
def entryWriteValues (r : Option (LockWrite × Option DimRequest)) : List String :=
  match r with
  | some (w, _) => w.values
  | none => []

/-- The write target of a processed entry. -/
def entryTargetOf (r : Option (LockWrite × Option DimRequest)) : Option Nat :=
  match r with
  | some (w, _) => w.target
  | none => none

/-- The hide request of a processed entry. -/
def entryHideOf (r : Option (LockWrite × Option DimRequest)) : Option DimRequest :=
  match r with
  | some (_, h) => h
  | none => none

/-! ### spec-side comparison definition and concrete fixtures -/

/-- Modelled from the amended spec wording of the normalizer: strip; a
result beginning with `+` is returned as-is (whatever its length); else the
10-digit and 11-digit rules apply; everything else (and an empty or absent
input) is rejected.  Stated independently of `normalizePhone` for the
refinement proof. -/
def specNormalizeAmended (raw : Option String) : Option String :=
  match raw with
  | none => none
  | some r =>
    if r = "" then none
    else
      let p := String.mk (r.data.filter isPhoneChar)
      if strStartsWith p "+" then some p
      else if p.length = 10 && allDigits p then some ("+" ++ DEFAULT_COUNTRY_CODE ++ p)
      else if p.length = 11 && allDigits p && strStartsWith p DEFAULT_COUNTRY_CODE then
        some ("+" ++ p)
      else none

/-- Fixture: an empty settings state. -/
def demoSettingsState : SettingsState :=
  { holdMinutes := 60, holdMinutesBySheet := [], settingsTabBySheet := [],
    settingsLegacyA2 := none }

/-- Fixture: a fresh server state. -/
def demoServerState : ServerState :=
  { dedupe := { recentEventKeys := [], recentTtlMs := 600000 } }

/-- Fixture: a server state with one pending increment. -/
def demoPendingState : ServerState :=
  { dedupe := { recentEventKeys := [], recentTtlMs := 600000 },
    pendingIncrements := [("+14155551212", 1)],
    lastEventIdByPhone := [("+14155551212", "s1||Disconnected|")] }

/-- Fixture: a counted outbound call-ended payload. -/
def demoPayload : Payload :=
  { body_party_status_code := some "Disconnected",
    body_party_direction := some "Outbound",
    body_party_to_phone := some "+14155551212",
    body_telephonySessionId := some "s1" }

/-- Fixture: a sheet environment with one lead tab `Sales` holding the demo
phone at row 5. -/
def demoEnv : SheetEnv :=
  { leadsNames := ["Sales"],
    index := [("+14155551212", ⟨"Sales", 5⟩)],
    sheetIdByTitle := fun _ => 77,
    lockAfterCalls := 2, holdMinutes := 60, holdMinutesBySheet := [] }

/-- Fixture: the v2 Locks header row. -/
def demoHeaderV2 : LockRow :=
  ["Phone", "LeadSheet", "LeadRow", "CallCount", "LockedUntil", "LastEventId", "UpdatedAt"]

/-- Fixture: one lead tab's fetched cells (header plus one data row). -/
def demoTabVals : List (List String) :=
  [["Phone Number (US)"], ["+14155551212"]]

/-! ## Lemmas -/

theorem amGet_eq_none_iff {α : Type} (m : List (String × α)) (k : String) :
    amGet m k = none ↔ ∀ e ∈ m, ¬(e.1 = k) := by
  simp [amGet, List.find?_eq_none]

theorem amGet_filter_none {α : Type} (m : List (String × α)) (k : String)
    (p : String × α → Bool) (h : amGet m k = none) : amGet (m.filter p) k = none := by
  rw [amGet_eq_none_iff] at h ⊢
  intro e he
  exact h e (List.mem_of_mem_filter he)

theorem amSet_fresh {α : Type} (m : List (String × α)) (k : String) (v : α)
    (h : amGet m k = none) : amSet m k v = m ++ [(k, v)] := by
  rw [amGet_eq_none_iff] at h
  have hany : m.any (fun e => e.1 == k) = false := by
    rw [List.any_eq_false]
    intro e he
    simpa using h e he
  simp [amSet, hany]

theorem amGet_append_single {α : Type} (m : List (String × α)) (k : String) (v : α)
    (h : amGet m k = none) : amGet (m ++ [(k, v)]) k = some v := by
  rw [amGet_eq_none_iff] at h
  induction m with
  | nil => simp [amGet]
  | cons e rest ih =>
    have he : ¬(e.1 = k) := h e (by simp)
    have : amGet (rest ++ [(k, v)]) k = some v := by
      apply ih
      intro x hx
      exact h x (by simp [hx])
    simpa [amGet, List.find?, show (e.1 == k) = false by simpa using he] using this

theorem amGet_filter_append_single {α : Type} (m : List (String × α)) (k : String)
    (v : α) (p : String × α → Bool) (h : amGet m k = none) (hp : p (k, v) = true) :
    amGet ((m ++ [(k, v)]).filter p) k = some v := by
  rw [amGet_eq_none_iff] at h
  induction m with
  | nil => simp [amGet, List.filter, hp]
  | cons e rest ih =>
    have he : ¬(e.1 = k) := h e (by simp)
    have tail : amGet ((rest ++ [(k, v)]).filter p) k = some v := by
      apply ih
      intro x hx
      exact h x (by simp [hx])
    by_cases hpe : p e = true
    · simpa [amGet, List.filter_cons, hpe, List.find?,
        show (e.1 == k) = false by simpa using he] using tail
    · simp only [Bool.not_eq_true] at hpe
      simpa [amGet, List.filter_cons, hpe] using tail

/-- The two-call dedupe lemma: a fresh non-empty fingerprint is not seen at
`t1` and is seen again at `t2` within the TTL; the map ends holding `t1`
for it. -/
theorem dedupe_pair (st : DedupeState) (fp : String) (t1 t2 : Int) (hfp : fp ≠ "")
    (hfresh : amGet st.recentEventKeys fp = none) (ht1 : t1 ≠ 0)
    (hwin : t2 - t1 < st.recentTtlMs) :
    (dedupeEvent st fp t1).1 = false ∧
    (dedupeEvent (dedupeEvent st fp t1).2 fp t2).1 = true := by
  have hstep : ∃ m0, amGet m0 fp = none ∧
      dedupeEvent st fp t1 =
        (false, { st with recentEventKeys := m0 ++ [(fp, t1)] }) := by
    unfold dedupeEvent
    rw [if_neg hfp]
    by_cases hlen : 200000 < st.recentEventKeys.length
    · refine ⟨st.recentEventKeys.filter
        (fun e => !decide (st.recentTtlMs < t1 - e.2)), ?_, ?_⟩
      · exact amGet_filter_none _ _ _ hfresh
      · have h0 := amGet_filter_none st.recentEventKeys fp
          (fun e => !decide (st.recentTtlMs < t1 - e.2)) hfresh
        simp only [if_pos hlen, h0, amSet_fresh _ _ _ h0]
    · refine ⟨st.recentEventKeys, hfresh, ?_⟩
      simp only [if_neg hlen, hfresh, amSet_fresh _ _ _ hfresh]
  obtain ⟨m0, hm0, heq⟩ := hstep
  constructor
  · rw [heq]
  · rw [heq]
    unfold dedupeEvent
    rw [if_neg hfp]
    simp only
    by_cases hlen : 200000 < (m0 ++ [(fp, t1)]).length
    · rw [if_pos hlen]
      have hkeep : (fun e => !decide (st.recentTtlMs < t2 - e.2)) (fp, t1) = true := by
        simp only [Bool.not_eq_true']
        simpa using not_lt_of_gt hwin
      rw [amGet_filter_append_single m0 fp t1 _ hm0 hkeep]
      simp [ht1, hwin]
    · rw [if_neg hlen]
      rw [amGet_append_single m0 fp t1 hm0]
      simp [ht1, hwin]

/-! ## Claims -/

/-- C3 counterexample: the claim states that any stripped result beginning
with `+` but shorter than 8 characters is rejected ("not a phone"); the
code's final line returns such strings as-is, so `"+12345"` is accepted
unchanged rather than rejected. -/
theorem C3_normalize_counterexample :
    normalizePhoneS "+12345" = some "+12345" ∧
    normalizePhoneS "+12345" ≠ none := by
  refine ⟨rfl, ?_⟩
  intro h
  rw [show normalizePhoneS "+12345" = some "+12345" from rfl] at h
  exact Option.noConfusion h

theorem not_allDigits_of_startsWith_plus (p : String)
    (h : strStartsWith p "+" = true) : allDigits p = false := by
  rcases p with ⟨l⟩
  cases l with
  | nil => simp [strStartsWith, List.isPrefixOf] at h
  | cons a as =>
    simp only [strStartsWith, List.isPrefixOf, Bool.and_true] at h
    have ha : a = '+' := by
      have := of_decide_eq_true (by simpa [BEq.beq] using h)
      exact this.symm
    subst ha
    simp [allDigits, List.all_cons, Char.isDigit]

/-- C3 (amended): `normalizePhone` strips, accepts any `+`-prefixed result
as-is (there is no minimum length on it: the length-8 test only decides
which branch returns it), applies the 10- and 11-digit rules to bare digit
strings, and rejects everything else.  The claim's three examples hold. -/
theorem C3_normalize_amended :
    (∀ raw, normalizePhone raw = specNormalizeAmended raw) ∧
    normalizePhoneS "(415) 555-1212" = some "+14155551212" ∧
    normalizePhoneS "+442071838750" = some "+442071838750" ∧
    normalizePhoneS "555-1212" = none := by
  refine ⟨?_, rfl, rfl, by decide⟩
  intro raw
  match raw with
  | none => rfl
  | some r =>
    simp only [normalizePhone, specNormalizeAmended]
    by_cases hr : r = ""
    · simp [hr]
    · rw [if_neg hr, if_neg hr]
      have hp : stripNonPhone r = String.mk (r.data.filter isPhoneChar) := rfl
      rw [← hp]
      by_cases hplus : strStartsWith (stripNonPhone r) "+" = true
      · have hdig := not_allDigits_of_startsWith_plus _ hplus
        by_cases hlen : 8 ≤ (stripNonPhone r).length
        · simp [hplus, hlen]
        · simp [hplus, hlen, hdig]
      · simp only [Bool.not_eq_true] at hplus
        simp [hplus]

/-- C5: a flush tick that found pending entries leaves the Pending Buffer
empty whatever the remote upsert did; on failure the drained entries are
not restored and `metrics.lastError` records the message with the
`"flush: "` prefix; on success the flush counter advances (the tick, a
total function here, continues on the next interval). -/
theorem C5_flush_drains (st : ServerState) (r : Except String Unit) (msg : String)
    (nowStr : String) (h : st.pendingIncrements ≠ []) :
    (flushTick st r nowStr).pendingIncrements = [] ∧
    (flushTick st (.error msg) nowStr).pendingIncrements = [] ∧
    (flushTick st (.error msg) nowStr).metrics.lastError =
      some ("flush: " ++ msg) ∧
    (flushTick st (.ok ()) nowStr).metrics.flushes = st.metrics.flushes + 1 := by
  have hne : st.pendingIncrements.isEmpty = false := by
    simpa [List.isEmpty_iff] using h
  refine ⟨?_, ?_, ?_, ?_⟩
  · cases r <;> simp [flushTick, hne]
  · simp [flushTick, hne]
  · simp [flushTick, hne]
  · simp [flushTick, hne]

theorem C5_flush_drains_witness :
    demoPendingState.pendingIncrements ≠ [] ∧
    (flushTick demoPendingState (.error "boom") "1000").pendingIncrements = [] ∧
    (flushTick demoPendingState (.error "boom") "1000").metrics.lastError =
      some ("flush: " ++ "boom") := by
  have h : demoPendingState.pendingIncrements ≠ [] := by decide
  obtain ⟨_, h2, h3, _⟩ :=
    C5_flush_drains demoPendingState (.error "boom") "boom" "1000" h
  exact ⟨h, h2, h3⟩

theorem extractEventId_ne_empty (p : Payload) : extractEventId p ≠ "" := by
  intro h
  have hl := congrArg String.length h
  simp only [extractEventId, String.length_append,
    show ("|" : String).length = 1 from rfl,
    show ("" : String).length = 0 from rfl] at hl
  omega

/-- C4: a fresh non-empty fingerprint is not seen on the first call and is
seen on the second within the TTL; the empty fingerprint always passes
through with the cache untouched; consequently, on the intake path, two
deliveries of the same counted event queue exactly one increment (the
second leaves the Pending Buffer unchanged). -/
theorem C4_dedupe (st : DedupeState) (fp : String) (t1 t2 : Int) (st2 : DedupeState)
    (t3 : Int) (p : Payload) (sst : ServerState) (now1 now2 : Int) (ph : String)
    (hfp : fp ≠ "") (hfresh : amGet st.recentEventKeys fp = none) (ht1 : t1 ≠ 0)
    (hwin : t2 - t1 < st.recentTtlMs)
    (hEnded : isEnded p = true)
    (hIn : strContains (getDirection p) "in" = false)
    (hphone : extractPhone p = some ph)
    (hpfresh : amGet sst.dedupe.recentEventKeys (extractEventId p) = none)
    (hn1 : now1 ≠ 0) (hnwin : now2 - now1 < sst.dedupe.recentTtlMs) :
    (dedupeEvent st fp t1).1 = false ∧
    (dedupeEvent (dedupeEvent st fp t1).2 fp t2).1 = true ∧
    dedupeEvent st2 "" t3 = (false, st2) ∧
    (processWebhookEvent p sst now1).pendingIncrements =
      amSet sst.pendingIncrements ph ((amGet sst.pendingIncrements ph).getD 0 + 1) ∧
    (processWebhookEvent p (processWebhookEvent p sst now1) now2).pendingIncrements =
      (processWebhookEvent p sst now1).pendingIncrements := by
  obtain ⟨h1, h2⟩ := dedupe_pair st fp t1 t2 hfp hfresh ht1 hwin
  refine ⟨h1, h2, by simp [dedupeEvent], ?_, ?_⟩
  · obtain ⟨g1, _⟩ := dedupe_pair sst.dedupe (extractEventId p) now1 now2
      (extractEventId_ne_empty p) hpfresh hn1 hnwin
    simp [processWebhookEvent, hEnded, hIn, COUNT_OUTBOUND, COUNT_INBOUND, hphone, g1,
      queueIncrement]
  · obtain ⟨g1, g2⟩ := dedupe_pair sst.dedupe (extractEventId p) now1 now2
      (extractEventId_ne_empty p) hpfresh hn1 hnwin
    simp [processWebhookEvent, hEnded, hIn, COUNT_OUTBOUND, COUNT_INBOUND, hphone, g1, g2,
      queueIncrement]

theorem C4_dedupe_witness :
    (("s1||Disconnected|" : String) ≠ "" ∧
      amGet ([] : List (String × Int)) "s1||Disconnected|" = none ∧
      (100 : Int) ≠ 0 ∧ (200 : Int) - 100 < (600000 : Int) ∧
      isEnded demoPayload = true ∧
      strContains (getDirection demoPayload) "in" = false ∧
      extractPhone demoPayload = some "+14155551212" ∧
      amGet demoServerState.dedupe.recentEventKeys (extractEventId demoPayload) = none) ∧
    (dedupeEvent ⟨[], 600000⟩ "s1||Disconnected|" 100).1 = false ∧
    (dedupeEvent (dedupeEvent ⟨[], 600000⟩ "s1||Disconnected|" 100).2
      "s1||Disconnected|" 200).1 = true ∧
    dedupeEvent ⟨[("k", 5)], 600000⟩ "" 300 = (false, ⟨[("k", 5)], 600000⟩) ∧
    (processWebhookEvent demoPayload demoServerState 100).pendingIncrements =
      amSet demoServerState.pendingIncrements "+14155551212"
        ((amGet demoServerState.pendingIncrements "+14155551212").getD 0 + 1) ∧
    (processWebhookEvent demoPayload (processWebhookEvent demoPayload demoServerState 100)
        200).pendingIncrements =
      (processWebhookEvent demoPayload demoServerState 100).pendingIncrements := by
  refine ⟨⟨by decide, by decide, by decide, by decide, by decide, by decide, by decide,
    by decide⟩, ?_⟩
  exact C4_dedupe ⟨[], 600000⟩ "s1||Disconnected|" 100 200 ⟨[("k", 5)], 600000⟩ 300
    demoPayload demoServerState 100 200 "+14155551212" (by decide) (by decide) (by decide)
    (by decide) (by decide) (by decide) (by decide) (by decide) (by decide) (by decide)

/-- C10: every fingerprint built by `extractEventId` contains its three
separators and is never empty, so the empty-fingerprint pass-through of
`dedupeEvent` is unreachable from the intake path; two events lacking every
identifying field share the fingerprint `"|||"`, and the second of them
within the TTL is dropped as a duplicate. -/
theorem C10_fingerprint (p q1 q2 : Payload) (dst : DedupeState) (t1 t2 : Int)
    (habs1 : eventIdFieldsAbsent q1 = true) (habs2 : eventIdFieldsAbsent q2 = true)
    (hfresh : amGet dst.recentEventKeys "|||" = none) (ht1 : t1 ≠ 0)
    (hwin : t2 - t1 < dst.recentTtlMs) :
    extractEventId p ≠ "" ∧
    extractEventId q1 = "|||" ∧ extractEventId q2 = extractEventId q1 ∧
    (dedupeEvent dst "|||" t1).1 = false ∧
    (dedupeEvent (dedupeEvent dst "|||" t1).2 "|||" t2).1 = true := by
  have habs : ∀ q : Payload, eventIdFieldsAbsent q = true → extractEventId q = "|||" := by
    intro q habs
    simp only [eventIdFieldsAbsent, Bool.and_eq_true, Option.isNone_iff_eq_none] at habs
    obtain ⟨⟨⟨⟨⟨⟨⟨⟨⟨⟨a1, a2⟩, a3⟩, a4⟩, a5⟩, a6⟩, a7⟩, a8⟩, a9⟩, a10⟩, a11⟩ := habs
    simp [extractEventId, jsOr, a1, a2, a3, a4, a5, a6, a7, a8, a9, a10, a11]
  obtain ⟨d1, d2⟩ := dedupe_pair dst "|||" t1 t2 (by decide) hfresh ht1 hwin
  exact ⟨extractEventId_ne_empty p, habs q1 habs1,
    (habs q2 habs2).trans (habs q1 habs1).symm, d1, d2⟩

theorem C10_fingerprint_witness :
    (eventIdFieldsAbsent {} = true ∧
      amGet ([] : List (String × Int)) "|||" = none ∧ (50 : Int) ≠ 0 ∧
      (80 : Int) - 50 < (600000 : Int)) ∧
    extractEventId demoPayload ≠ "" ∧
    extractEventId {} = "|||" ∧
    (dedupeEvent ⟨[], 600000⟩ "|||" 50).1 = false ∧
    (dedupeEvent (dedupeEvent ⟨[], 600000⟩ "|||" 50).2 "|||" 80).1 = true := by
  refine ⟨⟨by decide, by decide, by decide, by decide⟩, ?_⟩
  obtain ⟨w1, w2, _, w4, w5⟩ := C10_fingerprint demoPayload {} {} ⟨[], 600000⟩ 50 80
    (by decide) (by decide) (by decide) (by decide) (by decide)
  exact ⟨w1, w2, w4, w5⟩

/-- C7 counterexample: the claim states every `holdMinutes` outside
`[1, 1440]` is rejected, naming non-integers below 1; the guard
`m <= 0 || m > 1440` accepts `0.5`, which is outside `[1, 1440]`, and the
request succeeds with status 200. -/
theorem C7_settings_counterexample :
    (handleSettings (some (1/2)) "" demoSettingsState).1.status = 200 ∧
    ¬((1 : ℚ) ≤ 1/2) ∧
    holdMinutesValid (some (1/2)) = true := by
  have hv : holdMinutesValid (some (1/2 : ℚ)) = true := by
    simp only [holdMinutesValid, Bool.and_eq_true, decide_eq_true_eq]
    norm_num
  have hv' : holdMinutesValid (some (2⁻¹ : ℚ)) = true := by rwa [one_div] at hv
  refine ⟨?_, by norm_num, hv⟩
  simp [handleSettings, hv, hv', show strTrim "" = "" from rfl, saveHoldMinutesToSettings]

/-- C7 (amended): the settings mutation accepts exactly the finite values
with `0 < m ≤ 1440` (so 0 and 1441 are rejected, 1 and 1440 accepted, but a
non-integer in `(0, 1)` is accepted too); any rejected value leaves the
overlay and the settings tab unchanged, with a 400 validation error, and
`saveHoldMinutesToSettings` throws on exactly the rejected values. -/
theorem C7_settings_amended (m : Option ℚ) (q : ℚ) (leadSheet : String)
    (st : SettingsState) :
    ((handleSettings m leadSheet st).1.status = 200 ↔ holdMinutesValid m = true) ∧
    (holdMinutesValid (some q) = true ↔ (0 < q ∧ q ≤ 1440)) ∧
    (holdMinutesValid m = false →
      handleSettings m leadSheet st =
        ({ status := 400, error := some "holdMinutes must be between 1 and 1440" }, st)) ∧
    (saveHoldMinutesToSettings st m leadSheet = .error "Invalid holdMinutes" ↔
      holdMinutesValid m = false) ∧
    holdMinutesValid (some 0) = false ∧ holdMinutesValid (some 1) = true ∧
    holdMinutesValid (some 1440) = true ∧ holdMinutesValid (some 1441) = false := by
  refine ⟨?_, ?_, ?_, ?_, by decide, by decide, by decide, by decide⟩
  · by_cases hv : holdMinutesValid m = true
    · match m, hv with
      | some q', hv =>
        by_cases hs : strTrim leadSheet ≠ "" <;>
          simp [handleSettings, hv, hs, saveHoldMinutesToSettings]
    · simp only [Bool.not_eq_true] at hv
      simp [handleSettings, hv]
  · simp [holdMinutesValid, Bool.and_eq_true, decide_eq_true_eq]
  · intro hv
    simp [handleSettings, hv]
  · by_cases hv : holdMinutesValid m = true
    · match m, hv with
      | some q', hv =>
        by_cases hs : leadSheet ≠ "" <;> simp [saveHoldMinutesToSettings, hv, hs]
    · simp only [Bool.not_eq_true] at hv
      simp [saveHoldMinutesToSettings, hv]

theorem C7_settings_amended_witness :
    ((handleSettings (some 5) "Tab A" demoSettingsState).1.status = 200 ↔
      holdMinutesValid (some 5) = true) ∧
    (holdMinutesValid (some 5) = true ↔ ((0 : ℚ) < 5 ∧ (5 : ℚ) ≤ 1440)) ∧
    (holdMinutesValid (some 5) = false →
      handleSettings (some 5) "Tab A" demoSettingsState =
        ({ status := 400, error := some "holdMinutes must be between 1 and 1440" },
          demoSettingsState)) ∧
    (saveHoldMinutesToSettings demoSettingsState (some 5) "Tab A" =
        .error "Invalid holdMinutes" ↔ holdMinutesValid (some 5) = false) ∧
    holdMinutesValid (some 0) = false ∧ holdMinutesValid (some 1) = true ∧
    holdMinutesValid (some 1440) = true ∧ holdMinutesValid (some 1441) = false :=
  C7_settings_amended (some 5) 5 "Tab A" demoSettingsState

/-- C8 counterexample: the claim states the token is echoed verbatim in the
response body as well; the handler sends the constant body `"OK"`, so for
token `"token-123"` the body is not the token (the header echo does
happen). -/
theorem C8_webhook_counterexample :
    (handleWebhook (some "token-123") {} demoServerState 0).1.status = 200 ∧
    (handleWebhook (some "token-123") {} demoServerState 0).1.validationTokenHeader =
      some "token-123" ∧
    (handleWebhook (some "token-123") {} demoServerState 0).1.body = "OK" ∧
    ("OK" : String) ≠ "token-123" := by
  refine ⟨by decide, by decide, by decide, by decide⟩

/-- C8 (amended): for every request carrying a non-empty validation-token
header the handler responds 200 with the token echoed verbatim in the
response header, the constant body `"OK"`, and performs no further
processing (the state is returned untouched); an empty header value is
treated as absent. -/
theorem C8_webhook_amended (t : String) (p : Payload) (st : ServerState) (now : Int)
    (ht : t ≠ "") :
    handleWebhook (some t) p st now =
      ({ status := 200, body := "OK", validationTokenHeader := some t }, st) := by
  simp [handleWebhook, ht]

theorem C8_webhook_amended_witness :
    ("abc" : String) ≠ "" ∧
    handleWebhook (some "abc") {} demoServerState 5 =
      ({ status := 200, body := "OK", validationTokenHeader := some "abc" },
        demoServerState) :=
  ⟨by decide, C8_webhook_amended "abc" {} demoServerState 5 (by decide)⟩

/-- C1: for a pending entry whose phone is in the Leads Index, the flush
emits a write; the hide request is queued iff the existing record's
LockedUntil does not parse to an instant strictly after now and
`nextCount = curCount + delta` reaches `lockAfterCalls`, in which case the
written LockedUntil is the fresh `now + cooldown` deadline; an actively
locked record is rewritten with the updated CallCount and UpdatedAt but its
LockedUntil exactly the existing string, and below the threshold the
existing string is also kept; the write targets the found row (or appends).
A missing record behaves as an empty (hence unparsed) LockedUntil. -/
theorem C1_flush_lock_decision (env : SheetEnv) (rows : List LockRow) (now : Int)
    (e : PendingEntry) (loc : LeadLoc) (found : Option (Nat × LockRow)) (next : Int)
    (lu0 : String)
    (hloc : idxLookup env.index e.phone = some loc)
    (hfound : found = entryFound rows true e.phone loc.sheetName)
    (hnext : next = entryCurCount found true + e.inc)
    (hlu0 : lu0 = entryLockedUntil found true) :
    (processEntry env true rows now e).isSome = true ∧
    ((entryHideOf (processEntry env true rows now e)).isSome = true ↔
      (currentlyLockedAt lu0 now = false ∧ env.lockAfterCalls ≤ next)) ∧
    ((currentlyLockedAt lu0 now = false ∧ env.lockAfterCalls ≤ next) →
      entryHideOf (processEntry env true rows now e) =
        some { sheetId := env.sheetIdByTitle loc.sheetName,
               startIndex := (loc.rowIndex1 : Int) - 1, endIndex := (loc.rowIndex1 : Int),
               hidden := true } ∧
      entryWriteValues (processEntry env true rows now e) =
        [e.phone, loc.sheetName, toString loc.rowIndex1, toString next,
         minutesFromNowIso now (getHoldMinutesForSheet env loc.sheetName),
         e.eventId, nowIso now]) ∧
    (currentlyLockedAt lu0 now = true →
      entryWriteValues (processEntry env true rows now e) =
        [e.phone, loc.sheetName, toString loc.rowIndex1, toString next, lu0,
         e.eventId, nowIso now] ∧
      entryHideOf (processEntry env true rows now e) = none) ∧
    ((currentlyLockedAt lu0 now = false ∧ next < env.lockAfterCalls) →
      entryWriteValues (processEntry env true rows now e) =
        [e.phone, loc.sheetName, toString loc.rowIndex1, toString next, lu0,
         e.eventId, nowIso now] ∧
      entryHideOf (processEntry env true rows now e) = none) ∧
    entryTargetOf (processEntry env true rows now e) = found.map (fun f => f.1) := by
  subst hfound
  subst hnext
  subst hlu0
  by_cases hlock : currentlyLockedAt
      (entryLockedUntil (entryFound rows true e.phone loc.sheetName) true) now = true
  · simp [processEntry, hloc, entryHideOf, entryWriteValues, entryTargetOf, hlock]
  · simp only [Bool.not_eq_true] at hlock
    by_cases hthr : env.lockAfterCalls ≤
        entryCurCount (entryFound rows true e.phone loc.sheetName) true + e.inc
    · simp [processEntry, hloc, entryHideOf, entryWriteValues, entryTargetOf, hlock, hthr,
        not_lt_of_ge hthr]
    · simp [processEntry, hloc, entryHideOf, entryWriteValues, entryTargetOf, hlock, hthr]

theorem C1_flush_lock_decision_witness :
    (idxLookup demoEnv.index "+14155551212" = some ⟨"Sales", 5⟩ ∧
      entryFound [["+14155551212", "Sales", "5", "1", "", "e0", "900"]] true
        "+14155551212" "Sales" =
        some (2, ["+14155551212", "Sales", "5", "1", "", "e0", "900"]) ∧
      entryCurCount (some (2, ["+14155551212", "Sales", "5", "1", "", "e0", "900"]))
        true = 1 ∧
      entryLockedUntil (some (2, ["+14155551212", "Sales", "5", "1", "", "e0", "900"]))
        true = "") ∧
    ((entryHideOf (processEntry demoEnv true
        [["+14155551212", "Sales", "5", "1", "", "e0", "900"]] 1000
        { phone := "+14155551212", inc := 1, eventId := "e1" })).isSome = true ↔
      (currentlyLockedAt "" 1000 = false ∧ demoEnv.lockAfterCalls ≤ 2)) ∧
    ((currentlyLockedAt "" 1000 = false ∧ demoEnv.lockAfterCalls ≤ 2) →
      entryHideOf (processEntry demoEnv true
        [["+14155551212", "Sales", "5", "1", "", "e0", "900"]] 1000
        { phone := "+14155551212", inc := 1, eventId := "e1" }) =
        some { sheetId := demoEnv.sheetIdByTitle "Sales", startIndex := 4, endIndex := 5,
               hidden := true } ∧
      entryWriteValues (processEntry demoEnv true
        [["+14155551212", "Sales", "5", "1", "", "e0", "900"]] 1000
        { phone := "+14155551212", inc := 1, eventId := "e1" }) =
        ["+14155551212", "Sales", toString (5 : Nat), toString (2 : Int),
         minutesFromNowIso 1000 (getHoldMinutesForSheet demoEnv "Sales"), "e1",
         nowIso 1000]) := by
  have h := C1_flush_lock_decision demoEnv
    [["+14155551212", "Sales", "5", "1", "", "e0", "900"]] 1000
    { phone := "+14155551212", inc := 1, eventId := "e1" } ⟨"Sales", 5⟩
    (some (2, ["+14155551212", "Sales", "5", "1", "", "e0", "900"])) 2 ""
    (by decide) (by decide) (by decide) (by decide)
  exact ⟨⟨by decide, by decide, by decide, by decide⟩, h.2.1, h.2.2.1⟩

theorem getD_replicate (n j : Nat) (d : String) : (List.replicate n d).getD j d = d := by
  induction n generalizing j with
  | zero => simp [List.getD]
  | succ m ih =>
    cases j with
    | zero => simp [List.replicate]
    | succ k =>
      rw [List.replicate, List.getD_cons_succ]
      exact ih k

theorem getD_padTo (row : List String) (n j : Nat) :
    (padTo row n).getD j "" = row.getD j "" := by
  unfold padTo
  induction row generalizing n j with
  | nil =>
    rw [List.nil_append, show ([] : List String).getD j "" = "" from rfl]
    exact getD_replicate (n - 0) j ""
  | cons a as ih =>
    cases j with
    | zero => simp
    | succ k =>
      have hc : n - (as.length + 1) = (n - 1) - as.length := by omega
      simpa [hc] using ih (n - 1) k

theorem getD_take_lt (l : List String) (n j : Nat) (d : String) (h : j < n) :
    (l.take n).getD j d = l.getD j d := by
  induction l generalizing n j with
  | nil => simp
  | cons a as ih =>
    cases n with
    | zero => omega
    | succ m =>
      cases j with
      | zero => simp
      | succ k => simpa using ih m k (by omega)

theorem prefix_length_padTo (row : List String) (n : Nat) :
    ((padTo row n).take n).length = n := by
  simp [padTo, List.length_take]
  omega

theorem applyColsFrom_getD_lt (row : List String) (n : Nat) (v : List String) (j : Nat)
    (h : j < n) : (applyColsFrom row n v).getD j "" = row.getD j "" := by
  unfold applyColsFrom
  rw [List.getD_append _ _ _ _ (by rw [prefix_length_padTo]; exact h)]
  rw [getD_take_lt _ _ _ _ h, getD_padTo]

theorem applyColsFrom_getD_ge (row : List String) (n : Nat) (v : List String) (k : Nat) :
    (applyColsFrom row n v).getD (n + k) "" = v.getD k "" := by
  unfold applyColsFrom
  rw [List.getD_append_right _ _ _ _ (by rw [prefix_length_padTo]; omega)]
  rw [prefix_length_padTo]
  congr 1
  omega

/-- C2: a Lock record whose phone normalizes, whose tab and stored row are
usable, and whose LockedUntil parses to an instant `≤ now` produces exactly
one unhide request — targeting the Leads-Index row when the index maps the
phone to the same tab, else the stored LeadRow — and exactly one cell
update at its row that clears LockedUntil, writes back the existing
LastEventId, sets UpdatedAt to now, and (being an `E:G` write) leaves
CallCount and every other column untouched. -/
theorem C2_sweep_record (env : SheetEnv) (now : Int) (i : Nat) (row : LockRow)
    (phone : String) (t : Int) (loc' : LeadLoc)
    (hphone : normalizePhoneS (row.getD 0 "") = some phone)
    (htab : strTrim (row.getD 1 "") ≠ "")
    (hsr : safeNumber (row.getD 2 "") 0 ≠ 0)
    (hparse : dateParse (strTrim (row.getD 4 "")) = some t)
    (hexp : t ≤ now) :
    sweepRecord env true now i row =
      some ({ sheetId := env.sheetIdByTitle (strTrim (row.getD 1 "")),
              startIndex := sweepUnhideRow env phone (strTrim (row.getD 1 ""))
                  (safeNumber (row.getD 2 "") 0) - 1,
              endIndex := sweepUnhideRow env phone (strTrim (row.getD 1 ""))
                  (safeNumber (row.getD 2 "") 0),
              hidden := false },
            (i + 2, ["", row.getD 5 "", nowIso now])) ∧
    (idxLookup env.index phone = none →
      sweepUnhideRow env phone (strTrim (row.getD 1 "")) (safeNumber (row.getD 2 "") 0) =
        safeNumber (row.getD 2 "") 0) ∧
    (idxLookup env.index phone = some loc' →
      sweepUnhideRow env phone (strTrim (row.getD 1 "")) (safeNumber (row.getD 2 "") 0) =
        if loc'.sheetName = strTrim (row.getD 1 "") then (loc'.rowIndex1 : Int)
        else safeNumber (row.getD 2 "") 0) ∧
    (∀ j, j < 4 →
      (applyColsFrom row 4 ["", row.getD 5 "", nowIso now]).getD j "" = row.getD j "") ∧
    (applyColsFrom row 4 ["", row.getD 5 "", nowIso now]).getD 4 "" = "" ∧
    (applyColsFrom row 4 ["", row.getD 5 "", nowIso now]).getD 5 "" = row.getD 5 "" ∧
    (applyColsFrom row 4 ["", row.getD 5 "", nowIso now]).getD 6 "" = nowIso now := by
  have hlu : strTrim (row.getD 4 "") ≠ "" := by
    intro h0
    rw [h0] at hparse
    simp [dateParse, strToInt?, strToNat?] at hparse
  simp only [List.getD_eq_getElem?_getD] at hphone htab hsr hparse hlu
  refine ⟨?_, ?_, ?_, ?_, ?_, ?_, ?_⟩
  · simp [sweepRecord, hphone, htab, hsr, hlu, hparse, not_lt_of_ge hexp, clearVals]
  · intro h
    simp [sweepUnhideRow, h]
  · intro h
    simp [sweepUnhideRow, h]
  · intro j hj
    exact applyColsFrom_getD_lt row 4 _ j hj
  · simpa using applyColsFrom_getD_ge row 4 ["", row.getD 5 "", nowIso now] 0
  · simpa using applyColsFrom_getD_ge row 4 ["", row.getD 5 "", nowIso now] 1
  · simpa using applyColsFrom_getD_ge row 4 ["", row.getD 5 "", nowIso now] 2

theorem C2_sweep_record_witness :
    (normalizePhoneS (["+14155551212", "Sales", "5", "2", "500", "e0", "900"].getD 0 "") =
        some "+14155551212" ∧
      strTrim (["+14155551212", "Sales", "5", "2", "500", "e0", "900"].getD 1 "") ≠ "" ∧
      safeNumber (["+14155551212", "Sales", "5", "2", "500", "e0", "900"].getD 2 "") 0 ≠ 0 ∧
      dateParse (strTrim (["+14155551212", "Sales", "5", "2", "500", "e0", "900"].getD 4 "")) =
        some 500 ∧ (500 : Int) ≤ 1000) ∧
    sweepRecord demoEnv true 1000 0 ["+14155551212", "Sales", "5", "2", "500", "e0", "900"] =
      some ({ sheetId := demoEnv.sheetIdByTitle "Sales",
              startIndex := sweepUnhideRow demoEnv "+14155551212" "Sales" 5 - 1,
              endIndex := sweepUnhideRow demoEnv "+14155551212" "Sales" 5,
              hidden := false },
            (2, ["", "e0", nowIso 1000])) := by
  have h := C2_sweep_record demoEnv 1000 0
    ["+14155551212", "Sales", "5", "2", "500", "e0", "900"] "+14155551212" 500
    ⟨"Sales", 5⟩ (by decide) (by decide) (by decide) (by decide) (by decide)
  exact ⟨⟨by decide, by decide, by decide, by decide, by decide⟩, h.1⟩

theorem optFirst_none_right {α : Type} (a : Option α) : optFirst a none = a := by
  cases a <;> rfl

theorem optFirst_assoc {α : Type} (a b c : Option α) :
    optFirst (optFirst a b) c = optFirst a (optFirst b c) := by
  cases a <;> cases b <;> rfl

theorem amGet_append {α : Type} (m1 m2 : List (String × α)) (k : String) :
    amGet (m1 ++ m2) k = optFirst (amGet m1 k) (amGet m2 k) := by
  unfold amGet
  rw [List.find?_append]
  cases m1.find? (fun e => e.1 == k) <;> simp [optFirst, Option.or]

theorem idxHas_false_lookup (idx : LeadsIndex) (p : String)
    (h : idxHas idx p = false) : idxLookup idx p = none := by
  rw [idxLookup, amGet_eq_none_iff]
  intro e he
  rw [idxHas, List.any_eq_false] at h
  simpa using h e he

theorem idxHas_true_lookup (idx : LeadsIndex) (p : String)
    (h : idxHas idx p = true) : ∃ v, idxLookup idx p = some v := by
  rw [idxHas, List.any_eq_true] at h
  obtain ⟨e, he, hk⟩ := h
  rcases hfind : idx.find? (fun e => e.1 == p) with _ | f
  · rw [List.find?_eq_none] at hfind
    exact absurd hk (by simpa using hfind e he)
  · exact ⟨f.2, by simp [idxLookup, amGet, hfind]⟩

theorem idxLookup_insert_ne (idx : LeadsIndex) (p : String) (loc : LeadLoc)
    (ph : String) (h : ¬(p = ph)) :
    idxLookup (idxInsertIfAbsent idx p loc) ph = idxLookup idx ph := by
  unfold idxInsertIfAbsent
  by_cases hh : idxHas idx p
  · simp [hh]
  · simp only [hh, Bool.false_eq_true, if_false]
    rw [idxLookup, amGet_append]
    have hbeq : (p == ph) = false := by simpa using h
    have h2 : amGet [(p, loc)] ph = (none : Option LeadLoc) := by
      simp [amGet, List.find?, hbeq]
    rw [h2, optFirst_none_right]
    rfl

theorem amGet_cons_self {α : Type} (k : String) (v : α) (m : List (String × α)) :
    amGet ((k, v) :: m) k = some v := by
  simp [amGet, List.find?]

theorem amGet_cons_ne {α : Type} (k : String) (v : α) (m : List (String × α))
    (ph : String) (h : ¬(k = ph)) : amGet ((k, v) :: m) ph = amGet m ph := by
  have hbeq : (k == ph) = false := by simpa using h
  simp [amGet, List.find?, hbeq]

theorem scanRows_lookup (sheet : String) (c : Nat) :
    ∀ (rows : List (List String)) (k : Nat) (idx : LeadsIndex) (ph : String),
    idxLookup (scanRows sheet c k rows idx) ph =
      optFirst (idxLookup idx ph) (amGet (tabOccurrences sheet c k rows) ph) := by
  intro rows
  induction rows with
  | nil =>
    intro k idx ph
    simp [scanRows, tabOccurrences, amGet, optFirst_none_right]
  | cons row rest ih =>
    intro k idx ph
    rcases hcell : normalizePhoneS (row.getD c "") with _ | ph0
    · simp only [scanRows, tabOccurrences, hcell]
      rw [ih (k + 1) idx ph]
      simp
    · simp only [scanRows, tabOccurrences, hcell]
      rw [ih (k + 1) (idxInsertIfAbsent idx ph0 ⟨sheet, k⟩) ph]
      by_cases hph : ph0 = ph
      · subst hph
        rw [show ([(ph0, (⟨sheet, k⟩ : LeadLoc))] ++ tabOccurrences sheet c (k + 1) rest) =
          (ph0, (⟨sheet, k⟩ : LeadLoc)) :: tabOccurrences sheet c (k + 1) rest from rfl]
        rw [amGet_cons_self]
        unfold idxInsertIfAbsent
        by_cases hh : idxHas idx ph0
        · obtain ⟨v, hv⟩ := idxHas_true_lookup idx ph0 hh
          simp [hh, hv, optFirst]
        · have hnone := idxHas_false_lookup idx ph0 (by simpa using hh)
          simp only [hh, Bool.false_eq_true, if_false, hnone]
          rw [show idxLookup (idx ++ [(ph0, (⟨sheet, k⟩ : LeadLoc))]) ph0 =
            amGet (idx ++ [(ph0, (⟨sheet, k⟩ : LeadLoc))]) ph0 from rfl]
          rw [amGet_append, show amGet idx ph0 = none from hnone]
          simp [amGet_cons_self, optFirst]
      · rw [idxLookup_insert_ne idx ph0 _ ph hph]
        rw [show ([(ph0, (⟨sheet, k⟩ : LeadLoc))] ++ tabOccurrences sheet c (k + 1) rest) =
          (ph0, (⟨sheet, k⟩ : LeadLoc)) :: tabOccurrences sheet c (k + 1) rest from rfl]
        rw [amGet_cons_ne _ _ _ _ hph]

theorem refreshTab_lookup (idx out : LeadsIndex) (sheet : String)
    (values : List (List String)) (ph : String)
    (h : refreshTab idx sheet values = .ok out) :
    idxLookup out ph =
      optFirst (idxLookup idx ph)
        (amGet (match phoneColOf (values.getD 0 []) with
                | none => []
                | some c => tabOccurrences sheet c 2 (values.drop 1)) ph) := by
  unfold refreshTab at h
  rcases hcol : phoneColOf (values.getD 0 []) with _ | c
  · rw [hcol] at h
    exact absurd h (by simp)
  · rw [hcol] at h
    have hout : out = scanRows sheet c 2 (values.drop 1) idx := by
      cases h
      rfl
    rw [hout, scanRows_lookup]

theorem refreshAllTabs_lookup :
    ∀ (tabs : List (String × List (List String))) (idx out : LeadsIndex) (ph : String),
    refreshAllTabs tabs idx = .ok out →
    idxLookup out ph = optFirst (idxLookup idx ph) (amGet (allOccurrences tabs) ph) := by
  intro tabs
  induction tabs with
  | nil =>
    intro idx out ph h
    rw [show refreshAllTabs [] idx = .ok idx from rfl] at h
    cases h
    simp [allOccurrences, amGet, optFirst_none_right]
  | cons tab rest ih =>
    intro idx out ph h
    rcases tab with ⟨n, v⟩
    rw [show refreshAllTabs ((n, v) :: rest) idx =
      (match refreshTab idx n v with
       | .error e => .error e
       | .ok idx2 => refreshAllTabs rest idx2) from rfl] at h
    rcases htab : refreshTab idx n v with _ | idx2
    · rw [htab] at h
      exact absurd h (by simp)
    · rw [htab] at h
      rw [ih idx2 out ph h, refreshTab_lookup idx idx2 n v ph htab]
      rw [show allOccurrences ((n, v) :: rest) =
        ((match phoneColOf (v.getD 0 []) with
          | none => []
          | some c => tabOccurrences n c 2 (v.drop 1)) ++ allOccurrences rest) from rfl]
      rw [amGet_append, optFirst_assoc]

/-- C6 counterexample: with the same phone present in tabs `A` and `B`
(configured in that order), the refresh sequence "per-tab B, then per-tab
A" leaves the index mapping the phone to `(B, 2)`, not to its first
occurrence `(A, 2)` in configured tab order — so the invariant does not
survive arbitrary sequences of full and per-tab refreshes. -/
theorem C6_index_counterexample :
    refreshLeadsIndexOne [] "B" demoTabVals = .ok [("+14155551212", ⟨"B", 2⟩)] ∧
    refreshLeadsIndexOne [("+14155551212", ⟨"B", 2⟩)] "A" demoTabVals =
      .ok [("+14155551212", ⟨"B", 2⟩)] ∧
    firstOccurrence [("A", demoTabVals), ("B", demoTabVals)] "+14155551212" =
      some ⟨"A", 2⟩ ∧
    idxLookup [("+14155551212", ⟨"B", 2⟩)] "+14155551212" = some ⟨"B", 2⟩ ∧
    ((⟨"B", 2⟩ : LeadLoc) = (⟨"A", 2⟩ : LeadLoc) → False) := by
  refine ⟨rfl, rfl, by decide, by decide, by decide⟩

/-- C6 (amended): after a full index refresh the Leads Index maps every
phone to the (tab, 1-based row) of its first occurrence in configured tab
order; a per-tab refresh keeps entries of other tabs, so the invariant is
only guaranteed after a full refresh, not after arbitrary refresh
sequences. -/
theorem C6_index_first_occurrence (tabs : List (String × List (List String)))
    (idx : LeadsIndex) (ph : String) (h : refreshLeadsIndexFull tabs = .ok idx) :
    idxLookup idx ph = firstOccurrence tabs ph := by
  have := refreshAllTabs_lookup tabs [] idx ph h
  rw [this]
  rw [show idxLookup [] ph = none from rfl]
  rfl

theorem C6_index_first_occurrence_witness :
    refreshLeadsIndexFull [("A", demoTabVals), ("B", demoTabVals)] =
      .ok [("+14155551212", ⟨"A", 2⟩)] ∧
    idxLookup [("+14155551212", ⟨"A", 2⟩)] "+14155551212" =
      firstOccurrence [("A", demoTabVals), ("B", demoTabVals)] "+14155551212" := by
  refine ⟨rfl, ?_⟩
  exact C6_index_first_occurrence [("A", demoTabVals), ("B", demoTabVals)]
    [("+14155551212", ⟨"A", 2⟩)] "+14155551212" rfl

theorem sweepRecord_snd (env : SheetEnv) (now : Int) (i : Nat) (row : LockRow) :
    (sweepRecord env true now i row).map (fun r => r.2) =
      if v2Expired row now then some (i + 2, clearVals true row now) else none := by
  rcases hph : normalizePhoneS (row[0]?.getD "") with _ | ph
  · simp [sweepRecord, v2Expired, hph]
  · by_cases htab : strTrim (row[1]?.getD "") = ""
    · simp [sweepRecord, v2Expired, hph, htab]
    · by_cases hsr : safeNumber (row[2]?.getD "") 0 = 0
      · simp [sweepRecord, v2Expired, hph, htab, hsr]
      · by_cases hlu : strTrim (row[4]?.getD "") = ""
        · simp [sweepRecord, v2Expired, hph, htab, hsr, hlu,
            show dateParse "" = none from rfl]
        · rcases hdp : dateParse (strTrim (row[4]?.getD "")) with _ | t
          · simp [sweepRecord, v2Expired, hph, htab, hsr, hlu, hdp]
          · by_cases ht : now < t
            · simp [sweepRecord, v2Expired, hph, htab, hsr, hlu, hdp, ht,
                not_le_of_gt ht]
            · simp [sweepRecord, v2Expired, hph, htab, hsr, hlu, hdp, ht,
                le_of_not_lt ht]

theorem sweepRecord_eq_none (env : SheetEnv) (now : Int) (i : Nat) (row : LockRow)
    (hguard : v2Expired row now = false) : sweepRecord env true now i row = none := by
  have h := sweepRecord_snd env now i row
  rw [hguard] at h
  simp only [Bool.false_eq_true, if_false] at h
  exact Option.map_eq_none'.mp h

theorem unlock_updates_eq (env : SheetEnv) (header : LockRow) (rows : List LockRow)
    (now : Int) (hv2 : detectV2 header = true) :
    (unlockExpiredAndUnhide env (header :: rows) now).2 = sweepClearUpdates now 0 rows := by
  by_cases hrows : rows.isEmpty
  · rw [List.isEmpty_iff] at hrows
    subst hrows
    rfl
  · show (if rows.isEmpty then (([], []) : List DimRequest × List (Nat × List String))
      else
        ((rows.enum.filterMap (fun e => sweepRecord env (detectV2 header) now e.1 e.2)).map
          (fun r => r.1),
         (rows.enum.filterMap (fun e => sweepRecord env (detectV2 header) now e.1 e.2)).map
          (fun r => r.2))).2 = sweepClearUpdates now 0 rows
    rw [if_neg (by simp [hrows])]
    rw [hv2]
    show (rows.enum.filterMap (fun e => sweepRecord env true now e.1 e.2)).map
      (fun r => r.2) = sweepClearUpdates now 0 rows
    rw [List.map_filterMap]
    rw [show rows.enum = List.enumFrom 0 rows from rfl]
    unfold sweepClearUpdates
    congr 1
    funext e
    exact sweepRecord_snd env now e.1 e.2

theorem sweepClearUpdates_cons (now : Int) (k : Nat) (r : LockRow) (rs : List LockRow) :
    sweepClearUpdates now k (r :: rs) =
      (if v2Expired r now then [(k + 2, clearVals true r now)] else []) ++
        sweepClearUpdates now (k + 1) rs := by
  unfold sweepClearUpdates
  rw [show List.enumFrom k (r :: rs) = (k, r) :: List.enumFrom (k + 1) rs from rfl]
  rw [List.filterMap_cons]
  by_cases hg : v2Expired r now <;> simp [hg]

theorem sweepClearUpdates_key_ge (now : Int) :
    ∀ (rows : List LockRow) (k : Nat) (e : Nat × List String),
    e ∈ sweepClearUpdates now k rows → k + 2 ≤ e.1 := by
  intro rows
  induction rows with
  | nil => intro k e h; simp [sweepClearUpdates] at h
  | cons r rs ih =>
    intro k e h
    rw [sweepClearUpdates_cons] at h
    rcases List.mem_append.mp h with h1 | h2
    · by_cases hg : v2Expired r now
      · rw [if_pos hg, List.mem_singleton] at h1
        subst h1
        exact Nat.le_refl _
      · rw [if_neg hg] at h1
        simp at h1
    · have := ih (k + 1) e h2
      omega

theorem sweepClearUpdates_find? (now : Int) :
    ∀ (rows : List LockRow) (k i : Nat), i < rows.length →
    (sweepClearUpdates now k rows).find? (fun u => u.1 == (k + i) + 2) =
      if v2Expired (rows.getD i []) now then
        some ((k + i) + 2, clearVals true (rows.getD i []) now)
      else none := by
  intro rows
  induction rows with
  | nil => intro k i h; simp at h
  | cons r rs ih =>
    intro k i h
    rw [sweepClearUpdates_cons]
    cases i with
    | zero =>
      by_cases hg : v2Expired r now
      · simp [hg, List.find?]
      · rw [if_neg hg, List.nil_append]
        rw [show (r :: rs).getD 0 [] = r from rfl, if_neg hg]
        rw [List.find?_eq_none]
        intro e he
        have := sweepClearUpdates_key_ge now rs (k + 1) e he
        simp only [beq_iff_eq]
        omega
    | succ j =>
      have hkey : (k + (j + 1)) + 2 = ((k + 1) + j) + 2 := by omega
      have hij : j < rs.length := by simpa using Nat.lt_of_succ_lt_succ (by simpa using h)
      rw [show (r :: rs).getD (j + 1) [] = rs.getD j [] from rfl]
      rw [List.find?_append]
      have hhead : ((if v2Expired r now then [(k + 2, clearVals true r now)]
          else []).find? (fun u => u.1 == (k + (j + 1)) + 2)) = none := by
        by_cases hg : v2Expired r now
        · rw [if_pos hg]
          rw [List.find?_eq_none]
          intro e he
          simp only [List.mem_singleton] at he
          subst he
          simp only [beq_iff_eq]
          omega
        · rw [if_neg hg]
          rfl
      rw [hhead]
      rw [hkey, ih (k + 1) j hij]
      simp [Option.or]

theorem applySweep_pointwise (now1 : Int) (rows : List LockRow) :
    ∀ (rows2 : List LockRow) (k : Nat),
    (∀ j, j < rows2.length → rows2.getD j [] = rows.getD (k + j) []) →
    k + rows2.length ≤ rows.length →
    (List.enumFrom k rows2).map (fun e =>
      match (sweepClearUpdates now1 0 rows).find? (fun u => u.1 == e.1 + 2) with
      | some u => applyColsFrom e.2 4 u.2
      | none => e.2) =
    rows2.map (fun row =>
      if v2Expired row now1 then applyColsFrom row 4 (clearVals true row now1) else row) := by
  intro rows2
  induction rows2 with
  | nil => intro k _ _; rfl
  | cons r rs ih =>
    intro k hview hlen
    rw [show List.enumFrom k (r :: rs) = (k, r) :: List.enumFrom (k + 1) rs from rfl]
    rw [List.map_cons, List.map_cons]
    have hk : k < rows.length := by simp at hlen; omega
    have hr : r = rows.getD k [] := by simpa using hview 0 (by simp)
    have hfind := sweepClearUpdates_find? now1 rows 0 k (by simpa using hk)
    rw [Nat.zero_add] at hfind
    have htail : (List.enumFrom (k + 1) rs).map (fun e =>
        match (sweepClearUpdates now1 0 rows).find? (fun u => u.1 == e.1 + 2) with
        | some u => applyColsFrom e.2 4 u.2
        | none => e.2) =
        rs.map (fun row =>
          if v2Expired row now1 then applyColsFrom row 4 (clearVals true row now1)
          else row) := by
      apply ih (k + 1)
      · intro j hj
        have := hview (j + 1) (by simpa using Nat.succ_lt_succ hj)
        simpa [Nat.add_assoc, Nat.add_comm 1 j] using this
      · simp at hlen ⊢
        omega
    rw [htail]
    congr 1
    show (match (sweepClearUpdates now1 0 rows).find? (fun u => u.1 == k + 2) with
      | some u => applyColsFrom r 4 u.2
      | none => r) =
      if v2Expired r now1 then applyColsFrom r 4 (clearVals true r now1) else r
    rw [hfind]
    by_cases hg : v2Expired (rows.getD k []) now1
    · rw [if_pos hg]
      rw [← hr] at hg
      rw [if_pos hg, ← hr]
    · rw [if_neg hg]
      rw [← hr] at hg
      rw [if_neg hg]

theorem v2Expired_cleared (row : LockRow) (now1 t : Int) :
    v2Expired (applyColsFrom row 4 (clearVals true row now1)) t = false := by
  have h4 : (applyColsFrom row 4 (clearVals true row now1)).getD 4 "" = "" := by
    have := applyColsFrom_getD_ge row 4 (clearVals true row now1) 0
    simpa [clearVals] using this
  unfold v2Expired
  rw [h4]
  rw [show strTrim "" = "" from rfl, show dateParse "" = none from rfl]
  simp

/-- C9: running the sweep twice on a v2 Locks table, when every record
expired at the second instant was already expired at the first (no deadline
passes in between), makes the second run a no-op: it issues no unhide
requests and no cell updates, since cleared records have an empty
LockedUntil and all others still fail the expiry guard. -/
theorem C9_sweep_idempotent (env env2 : SheetEnv) (header : LockRow)
    (rows : List LockRow) (now1 now2 : Int)
    (hv2 : detectV2 header = true)
    (hmono : ∀ row ∈ rows, v2Expired row now2 = true → v2Expired row now1 = true) :
    unlockExpiredAndUnhide env2
      (header :: applySweepUpdates true rows
        (unlockExpiredAndUnhide env (header :: rows) now1).2) now2 = ([], []) := by
  rw [unlock_updates_eq env header rows now1 hv2]
  have happly : applySweepUpdates true rows (sweepClearUpdates now1 0 rows) =
      rows.map (fun row =>
        if v2Expired row now1 then applyColsFrom row 4 (clearVals true row now1)
        else row) := by
    unfold applySweepUpdates
    rw [show rows.enum = List.enumFrom 0 rows from rfl]
    rw [if_pos rfl]
    exact applySweep_pointwise now1 rows rows 0 (fun j _ => by simp) (by simp)
  rw [happly]
  set M := rows.map (fun row =>
    if v2Expired row now1 then applyColsFrom row 4 (clearVals true row now1) else row)
    with hM
  have hall : ∀ e ∈ M.enum, sweepRecord env2 true now2 e.1 e.2 = none := by
    intro e he
    have hmem : e.2 ∈ M := List.snd_mem_of_mem_enumFrom he
    rw [hM] at hmem
    obtain ⟨row, hrow, heq⟩ := List.mem_map.mp hmem
    apply sweepRecord_eq_none
    by_cases hg : v2Expired row now1
    · rw [if_pos hg] at heq
      rw [← heq]
      exact v2Expired_cleared row now1 now2
    · rw [if_neg hg] at heq
      rw [← heq]
      by_cases hg2 : v2Expired row now2
      · exact absurd (hmono row hrow hg2) hg
      · simpa using hg2
  show (if M.isEmpty then (([], []) : List DimRequest × List (Nat × List String))
    else
      ((M.enum.filterMap (fun e => sweepRecord env2 (detectV2 header) now2 e.1 e.2)).map
        (fun r => r.1),
       (M.enum.filterMap (fun e => sweepRecord env2 (detectV2 header) now2 e.1 e.2)).map
        (fun r => r.2))) = ([], [])
  rw [hv2]
  by_cases hemp : M.isEmpty
  · rw [if_pos hemp]
  · rw [if_neg hemp]
    rw [List.filterMap_eq_nil_iff.mpr hall]
    rfl

theorem C9_sweep_idempotent_witness :
    (detectV2 demoHeaderV2 = true ∧
      (∀ row ∈ [["+14155551212", "Sales", "5", "2", "500", "e0", "900"]],
        v2Expired row 2000 = true → v2Expired row 1000 = true)) ∧
    unlockExpiredAndUnhide demoEnv
      (demoHeaderV2 :: applySweepUpdates true
        [["+14155551212", "Sales", "5", "2", "500", "e0", "900"]]
        (unlockExpiredAndUnhide demoEnv
          (demoHeaderV2 :: [["+14155551212", "Sales", "5", "2", "500", "e0", "900"]])
          1000).2) 2000 = ([], []) := by
  refine ⟨⟨by decide, by decide⟩, ?_⟩
  exact C9_sweep_idempotent demoEnv demoEnv demoHeaderV2
    [["+14155551212", "Sales", "5", "2", "500", "e0", "900"]] 1000 2000
    (by decide) (by decide)

end LeadLock
